import Mathlib

/-!
Shallow embedding of the flexi rate & savings computation engine
(source: the rate-calculator module of the repository).

Modelling conventions:
* JavaScript numbers are modelled as exact rationals `ℚ`.
* A JavaScript `Date` is modelled by the record of the only local calendar
  fields the engine ever reads from it: `getFullYear`, `getMonth()+1`,
  `getDate`, `getHours`, `getMinutes`, `getDay`.  Fields are `Int` so that
  out-of-range values are statable.
* A JavaScript object used as a dictionary is modelled as an association
  list in insertion order: assignment to an existing key updates the entry
  in place, assignment to a new key appends at the end; `Object.keys`
  iterates in that order (`objSet` / `objGet` / key order = list order).
* `console.log` calls and the matched/unmatched counters in the source are
  pure side effects with no influence on the returned value; they are
  dropped.
-/

namespace Flexi

/-- The local calendar fields of a JavaScript `Date`, as the engine reads
them: `year = getFullYear()`, `month = getMonth() + 1`, `day = getDate()`,
`hour = getHours()`, `minute = getMinutes()`, `dayOfWeek = getDay()`
(0 = Sunday .. 6 = Saturday). -/
structure JSDate where
  year : Int
  month : Int
  day : Int
  hour : Int
  minute : Int
  dayOfWeek : Int
deriving DecidableEq, Repr

inductive Season where
  | summer
  | winter
deriving DecidableEq, Repr

inductive Period where
  | peak
  | partialPeak
  | offPeak
deriving DecidableEq, Repr

/-- `TOU_RATES[season].rates[period]`: the six fixed rate constants. -/
def TOU_RATES (season : Season) (period : Period) : ℚ :=
  match season, period with
  | .summer, .peak => 0.62277
  | .summer, .partialPeak => 0.51228
  | .summer, .offPeak => 0.31026
  | .winter, .peak => 0.49566
  | .winter, .partialPeak => 0.47896
  | .winter, .offPeak => 0.31027

/-- `TOU_RATES.summer.startMonth` -/
def summerStartMonth : Int := 6
/-- `TOU_RATES.summer.endMonth` -/
def summerEndMonth : Int := 9

/-- `getSeason(date)`: summer iff the 1-based month is in June..September,
otherwise winter. -/
def getSeason (date : JSDate) : Season :=
  if summerStartMonth ≤ date.month ∧ date.month ≤ summerEndMonth then
    .summer
  else
    .winter

/-- `getTOUPeriod(hour)`: peak 16..20, partial-peak 15 and 21..23,
off-peak otherwise. -/
def getTOUPeriod (hour : Int) : Period :=
  if 16 ≤ hour ∧ hour ≤ 20 then
    .peak
  else if hour = 15 ∨ (21 ≤ hour ∧ hour ≤ 23) then
    .partialPeak
  else
    .offPeak

/-- `getTOURate(timestamp)` -/
def getTOURate (date : JSDate) : ℚ :=
  TOU_RATES (getSeason date) (getTOUPeriod date.hour)

/-- `calculateTOUCost(timestamp, usageKWh)` -/
def calculateTOUCost (date : JSDate) (usageKWh : ℚ) : ℚ :=
  usageKWh * getTOURate date

/-- A usage data point as consumed by the engine: `{timestamp, usage}`. -/
structure UsageRecord where
  timestamp : JSDate
  usage : ℚ
deriving DecidableEq, Repr

/-- JavaScript object assignment `m[k] = v` on an insertion-ordered
dictionary: update in place when the key exists, append otherwise. -/
def objSet {α β : Type} [DecidableEq α] : List (α × β) → α → β → List (α × β)
  | [], k, v => [(k, v)]
  | (k', v') :: rest, k, v =>
      if k = k' then (k, v) :: rest else (k', v') :: objSet rest k v

/-- JavaScript object read `m[k]` (`undefined` becomes `none`). -/
def objGet {α β : Type} [DecidableEq α] : List (α × β) → α → Option β
  | [], _ => none
  | (k', v') :: rest, k => if k = k' then some v' else objGet rest k

/-- Day type of a date: weekend iff `getDay()` is Sunday (0) or
Saturday (6). -/
inductive DayType where
  | weekday
  | weekend
deriving DecidableEq, Repr

/-- `date.getDay() === 0 || date.getDay() === 6 ? 'weekend' : 'weekday'` -/
def dayTypeOf (date : JSDate) : DayType :=
  if date.dayOfWeek = 0 ∨ date.dayOfWeek = 6 then .weekend else .weekday

/-- The grouping key `` `${hour}-${dayType}` `` of
`calculateSubscriptionQuantities` (the hour from `getHours()` is
non-negative, so the string key is in bijection with the pair). -/
abbrev GroupKey := Int × DayType

/-- The nested object `subscriptionQuantities : hour → dayType → average`,
both levels in insertion order. -/
abbrev SubscriptionQuantities := List (Int × List (DayType × ℚ))

/-- The grouping key of a data point:
`` `${date.getHours()}-${dayType}` ``. -/
def recordKey (dataPoint : UsageRecord) : GroupKey :=
  (dataPoint.timestamp.hour, dayTypeOf dataPoint.timestamp)

/-- The body of the grouping loop of `calculateSubscriptionQuantities`:
push the data point's usage onto its `(hour, dayType)` group. -/
def groupStep (groupedData : List (GroupKey × List ℚ))
    (dataPoint : UsageRecord) : List (GroupKey × List ℚ) :=
  objSet groupedData (recordKey dataPoint)
    ((objGet groupedData (recordKey dataPoint)).getD [] ++ [dataPoint.usage])

/-- The body of the averaging loop of `calculateSubscriptionQuantities`:
store the arithmetic mean of the group's usage values
(`usageValues.reduce((sum, usage) => sum + usage, 0) / usageValues.length`)
under `subscriptionQuantities[hour][dayType]`. -/
def tableStep (subscriptionQuantities : SubscriptionQuantities)
    (entry : GroupKey × List ℚ) : SubscriptionQuantities :=
  let averageUsage : ℚ := entry.2.sum / (entry.2.length : ℚ)
  let inner := (objGet subscriptionQuantities entry.1.1).getD []
  objSet subscriptionQuantities entry.1.1 (objSet inner entry.1.2 averageUsage)

/-- `calculateSubscriptionQuantities(historicalUsageData)`: group the data
points by `(hour, dayType)` into `groupedData` (values pushed in input
order), then for each group in insertion order store the arithmetic mean
of its usage values under `subscriptionQuantities[hour][dayType]`. -/
def calculateSubscriptionQuantities (historicalUsageData : List UsageRecord) :
    SubscriptionQuantities :=
  let groupedData : List (GroupKey × List ℚ) :=
    historicalUsageData.foldl groupStep []
  groupedData.foldl tableStep []

/-- Two-level lookup of an entry actually present in the nested table
(no fallback). -/
def tableLookup (t : SubscriptionQuantities) (h : Int) (dt : DayType) :
    Option ℚ :=
  (objGet t h).bind (fun inner => objGet inner dt)

/-- The spec's description of a group: the usage values, in input order,
of the historical records whose timestamp falls on the given
`(hour, dayType)` key. -/
def specGroupUsages (historicalUsageData : List UsageRecord)
    (key : GroupKey) : List ℚ :=
  (historicalUsageData.filter (fun r => decide (recordKey r = key))).map
    (fun r => r.usage)

/-- `getSubscriptionQuantity(timestamp, subscriptionQuantities)`: exact
`(hour, dayType)` entry, else the first available dayType for that hour,
else 0. -/
def getSubscriptionQuantity (date : JSDate)
    (subscriptionQuantities : SubscriptionQuantities) : ℚ :=
  let hour := date.hour
  let dayType := dayTypeOf date
  match objGet subscriptionQuantities hour with
  | some inner =>
      match objGet inner dayType with
      | some v => v
      | none =>
          -- fallback: `Object.keys(subscriptionQuantities[hour])[0]`
          match inner with
          | [] => 0
          | (_, v) :: _ => v
  | none => 0

/-- `calculateDynamicCost(timestamp, usageKWh, dynamicRate,
subscriptionQuantities)` -/
def calculateDynamicCost (date : JSDate) (usageKWh dynamicRate : ℚ)
    (subscriptionQuantities : SubscriptionQuantities) : ℚ :=
  let subscriptionQuantity := getSubscriptionQuantity date subscriptionQuantities
  let usageDifference := usageKWh - subscriptionQuantity
  usageDifference * dynamicRate

/-- The object returned by `calculateSavings`. -/
structure SavingsData where
  timestamp : JSDate
  usageKWh : ℚ
  touCost : ℚ
  dynamicCost : ℚ
  savings : ℚ
  touRate : ℚ
  dynamicRate : ℚ
  subscriptionQuantity : ℚ
deriving DecidableEq, Repr

/-- `calculateSavings(timestamp, usageKWh, dynamicRate,
subscriptionQuantities)` -/
def calculateSavings (date : JSDate) (usageKWh dynamicRate : ℚ)
    (subscriptionQuantities : SubscriptionQuantities) : SavingsData :=
  let touCost := calculateTOUCost date usageKWh
  let dynamicCost := calculateDynamicCost date usageKWh dynamicRate subscriptionQuantities
  let savings := touCost - dynamicCost
  { timestamp := date
    usageKWh := usageKWh
    touCost := touCost
    dynamicCost := dynamicCost
    savings := savings
    touRate := getTOURate date
    dynamicRate := dynamicRate
    subscriptionQuantity := getSubscriptionQuantity date subscriptionQuantities }

/-- `String(n).padStart(2, '0')` (every `toString` of an `Int` is
non-empty, so a single conditional pad suffices). -/
def padStart2 (s : String) : String :=
  if s.length < 2 then "0" ++ s else s

/-- `normalizeTimestamp(timestamp)`: local calendar fields rendered as
`YYYY-MM-DDTHH:MM:00`. -/
def normalizeTimestamp (date : JSDate) : String :=
  toString date.year ++ "-" ++ padStart2 (toString date.month) ++ "-" ++
    padStart2 (toString date.day) ++ "T" ++ padStart2 (toString date.hour) ++
    ":" ++ padStart2 (toString date.minute) ++ ":00"

/-- `createTimePattern(timestamp)`: `` `${dayOfWeek}-${HH}:${MM}` ``. -/
def createTimePattern (date : JSDate) : String :=
  toString date.dayOfWeek ++ "-" ++ padStart2 (toString date.hour) ++ ":" ++
    padStart2 (toString date.minute)

/-- The pricing input: parallel arrays of timestamps and prices
(invariant from the spec: equal lengths). -/
structure PricingData where
  timestamps : List JSDate
  prices : List ℚ
deriving DecidableEq, Repr

/-- The value stored in the two pricing lookup maps:
`{price, originalTimestamp}` (`originalTimestamp` is stored but never read
back by the engine). -/
structure PricingInfo where
  price : ℚ
  originalTimestamp : JSDate
deriving DecidableEq, Repr

abbrev PricingMap := List (String × PricingInfo)

/-- The map-construction loop of `calculateSavingsForPeriods`: one pass
over the pricing series filling both `pricingMap` (keyed by normalized
timestamp) and `pricingPatternMap` (keyed by time pattern); later entries
overwrite earlier ones with the same key. -/
def buildPricingMaps (pricingData : PricingData) : PricingMap × PricingMap :=
  (pricingData.timestamps.zip pricingData.prices).foldl
    (fun maps tp =>
      (objSet maps.1 (normalizeTimestamp tp.1) ⟨tp.2, tp.1⟩,
       objSet maps.2 (createTimePattern tp.1) ⟨tp.2, tp.1⟩))
    ([], [])

/-- The per-record price resolution of `calculateSavingsForPeriods`:
exact normalized-timestamp match first, pattern match as fallback. -/
def alignPrice (pricingMap pricingPatternMap : PricingMap) (date : JSDate) :
    Option PricingInfo :=
  match objGet pricingMap (normalizeTimestamp date) with
  | some info => some info
  | none => objGet pricingPatternMap (createTimePattern date)

/-- An element of the result list of `calculateSavingsForPeriods`:
`{...savingsData, cumulativeSavings}`. -/
structure SavingsRecord extends SavingsData where
  cumulativeSavings : ℚ
deriving DecidableEq, Repr

/-- The body of the `usageData.forEach` loop of
`calculateSavingsForPeriods`, acting on the state
`(results, cumulativeSavings)`. -/
def processRecord (pricingMap pricingPatternMap : PricingMap)
    (subscriptionQuantities : SubscriptionQuantities)
    (state : List SavingsRecord × ℚ) (dataPoint : UsageRecord) :
    List SavingsRecord × ℚ :=
  match alignPrice pricingMap pricingPatternMap dataPoint.timestamp with
  | some pricingInfo =>
      let savingsData :=
        calculateSavings dataPoint.timestamp dataPoint.usage pricingInfo.price
          subscriptionQuantities
      let cumulativeSavings := state.2 + savingsData.savings
      (state.1 ++ [{ savingsData with cumulativeSavings := cumulativeSavings }],
       cumulativeSavings)
  | none => state

/-- `calculateSavingsForPeriods(usageData, pricingData,
subscriptionQuantities)` -/
def calculateSavingsForPeriods (usageData : List UsageRecord)
    (pricingData : PricingData)
    (subscriptionQuantities : SubscriptionQuantities) : List SavingsRecord :=
  let maps := buildPricingMaps pricingData
  (usageData.foldl (processRecord maps.1 maps.2 subscriptionQuantities)
    ([], 0)).1

/-! ### Concrete inputs used by the test-scenario parts of the claims -/

/-- `2024-07-15T17:00` local time; July 15 2024 is a Monday. -/
def scenarioDate : JSDate := ⟨2024, 7, 15, 17, 0, 1⟩

/-- A baseline table whose weekday hour-17 subscription quantity is 8 kWh. -/
def scenarioTable : SubscriptionQuantities := [(17, [(DayType.weekday, 8)])]

/-- One usage record: 10 kWh at the scenario timestamp. -/
def scenarioUsage : List UsageRecord := [⟨scenarioDate, 10⟩]

/-- A pricing series with a single 0.20 $/kWh price at the scenario
timestamp. -/
def scenarioPricing : PricingData := ⟨[scenarioDate], [0.20]⟩

/-- The record emitted by the engine on the scenario inputs. -/
def scenarioRecord : SavingsRecord :=
  ⟨calculateSavings scenarioDate 10 0.20 scenarioTable,
   (calculateSavings scenarioDate 10 0.20 scenarioTable).savings⟩

/-- The projection of an emitted record to its input data. -/
def projOut (r : SavingsRecord) : JSDate × ℚ := (r.timestamp, r.usageKWh)

/-- The projection of a usage data point used to compare against emitted
records. -/
def projIn (dp : UsageRecord) : JSDate × ℚ := (dp.timestamp, dp.usage)

/-- Whether the engine finds a price (exact or pattern) for a usage
record of the given pricing series. -/
def matchedBy (pricingData : PricingData) (dp : UsageRecord) : Bool :=
  (alignPrice (buildPricingMaps pricingData).1 (buildPricingMaps pricingData).2
    dp.timestamp).isSome

/-- The list of the six constants of the TOU rate table. -/
def allTOURates : List ℚ := [0.62277, 0.51228, 0.31026, 0.49566, 0.47896, 0.31027]

/-! ### Helper lemmas on the JavaScript-object model -/

theorem objGet_objSet {α β : Type} [DecidableEq α] (m : List (α × β))
    (k k' : α) (v : β) :
    objGet (objSet m k v) k' = if k' = k then some v else objGet m k' := by
  induction m with
  | nil => simp [objSet, objGet]
  | cons p rest ih =>
      obtain ⟨a, b⟩ := p
      by_cases hka : k = a
      · subst hka
        by_cases hk : k' = k <;> simp [objSet, objGet, hk]
      · by_cases h1 : k' = a
        · subst h1
          have hkk : ¬k' = k := fun h => hka h.symm
          simp [objSet, objGet, hka, hkk]
        · simp [objSet, objGet, hka, h1, ih]

theorem foldl_processRecord_mem (em pm : PricingMap)
    (sq : SubscriptionQuantities) (P : SavingsRecord → Prop)
    (hP : ∀ (d : JSDate) (u p c : ℚ),
      P ⟨calculateSavings d u p sq, c⟩) :
    ∀ (u : List UsageRecord) (acc : List SavingsRecord) (c : ℚ),
      (∀ x ∈ acc, P x) →
      ∀ r ∈ (u.foldl (processRecord em pm sq) (acc, c)).1, P r := by
  intro u
  induction u with
  | nil => intro acc c hacc r hr; exact hacc r hr
  | cons dp rest ih =>
      intro acc c hacc r hr
      simp only [List.foldl_cons] at hr
      cases halign : alignPrice em pm dp.timestamp with
      | none =>
          have hstep : processRecord em pm sq (acc, c) dp = (acc, c) := by
            simp [processRecord, halign]
          rw [hstep] at hr
          exact ih acc c hacc r hr
      | some info =>
          have hstep : processRecord em pm sq (acc, c) dp =
              (acc ++ [⟨calculateSavings dp.timestamp dp.usage info.price sq,
                  c + (calculateSavings dp.timestamp dp.usage info.price sq).savings⟩],
               c + (calculateSavings dp.timestamp dp.usage info.price sq).savings) := by
            simp [processRecord, halign]
          rw [hstep] at hr
          refine ih _ _ ?_ r hr
          intro x hx
          rcases List.mem_append.1 hx with hx | hx
          · exact hacc x hx
          · rw [List.mem_singleton.1 hx]
            exact hP _ _ _ _

theorem foldl_processRecord_proj (em pm : PricingMap)
    (sq : SubscriptionQuantities) :
    ∀ (u : List UsageRecord) (acc : List SavingsRecord) (c : ℚ),
      ((u.foldl (processRecord em pm sq) (acc, c)).1).map projOut
        = acc.map projOut ++
          (u.filter (fun dp => (alignPrice em pm dp.timestamp).isSome)).map projIn := by
  intro u
  induction u with
  | nil => intro acc c; simp
  | cons dp rest ih =>
      intro acc c
      simp only [List.foldl_cons]
      cases halign : alignPrice em pm dp.timestamp with
      | none =>
          have hstep : processRecord em pm sq (acc, c) dp = (acc, c) := by
            simp [processRecord, halign]
          rw [hstep, ih]
          simp [List.filter_cons, halign]
      | some info =>
          have hstep : processRecord em pm sq (acc, c) dp =
              (acc ++ [⟨calculateSavings dp.timestamp dp.usage info.price sq,
                  c + (calculateSavings dp.timestamp dp.usage info.price sq).savings⟩],
               c + (calculateSavings dp.timestamp dp.usage info.price sq).savings) := by
            simp [processRecord, halign]
          rw [hstep, ih]
          simp [List.filter_cons, halign, projOut, projIn, calculateSavings]

/-! ### Claim theorems -/

/-- C3: `getTOURate` always returns the table entry for
`(season, period)`; the season is summer iff the month is in 6..9; the
period is peak iff `16 ≤ h ≤ 20`, partial-peak iff `h = 15` or
`21 ≤ h ≤ 23`, off-peak otherwise; and the returned rate is one of the
six fixed table constants. -/
theorem getTOURate_is_table_lookup (d : JSDate) :
    getTOURate d = TOU_RATES (getSeason d) (getTOUPeriod d.hour) ∧
    (getSeason d = Season.summer ↔ (6 ≤ d.month ∧ d.month ≤ 9)) ∧
    (getTOUPeriod d.hour = Period.peak ↔ (16 ≤ d.hour ∧ d.hour ≤ 20)) ∧
    (getTOUPeriod d.hour = Period.partialPeak ↔
      (d.hour = 15 ∨ (21 ≤ d.hour ∧ d.hour ≤ 23))) ∧
    (getTOUPeriod d.hour = Period.offPeak ↔
      ¬((16 ≤ d.hour ∧ d.hour ≤ 20) ∨ d.hour = 15 ∨
        (21 ≤ d.hour ∧ d.hour ≤ 23))) ∧
    getTOURate d ∈ allTOURates := by
  refine ⟨rfl, ?_, ?_, ?_, ?_, ?_⟩
  · unfold getSeason summerStartMonth summerEndMonth
    split_ifs with h <;> simp_all
  · unfold getTOUPeriod
    split_ifs with h1 h2 <;> simp_all
  · unfold getTOUPeriod
    split_ifs with h1 h2 <;> simp_all
    omega
  · unfold getTOUPeriod
    split_ifs with h1 h2 <;> simp_all
  · unfold getTOURate
    cases getSeason d <;> cases getTOUPeriod d.hour <;>
      simp [TOU_RATES, allTOURates]

/-- C10: `getTOUPeriod` has no error branch — every hour outside 0..23
falls through to off-peak — and `getTOURate` is total: it returns one of
the six table constants for every date record, including out-of-range
months and hours. -/
theorem getTOUPeriod_out_of_range_offPeak :
    (∀ h : Int, (h < 0 ∨ 23 < h) → getTOUPeriod h = Period.offPeak) ∧
    (∀ d : JSDate, getTOURate d ∈ allTOURates) := by
  constructor
  · intro h hout
    unfold getTOUPeriod
    split_ifs with h1 h2
    · omega
    · omega
    · rfl
  · intro d
    unfold getTOURate
    cases getSeason d <;> cases getTOUPeriod d.hour <;>
      simp [TOU_RATES, allTOURates]

/-- Witness for C10 at hour 24. -/
theorem getTOUPeriod_out_of_range_offPeak_witness :
    ((24 : Int) < 0 ∨ 23 < (24 : Int)) ∧ getTOUPeriod 24 = Period.offPeak :=
  ⟨Or.inr (by decide),
   getTOUPeriod_out_of_range_offPeak.1 24 (Or.inr (by decide))⟩

/-- C8: building the baseline from no historical records yields the empty
table, and every lookup on the empty table returns 0. -/
theorem calculateSubscriptionQuantities_empty :
    calculateSubscriptionQuantities [] = ([] : SubscriptionQuantities) ∧
    ∀ d : JSDate, getSubscriptionQuantity d [] = 0 :=
  ⟨rfl, fun _ => rfl⟩

/-- C9: the engine is deterministic — two runs on equal inputs return
equal outputs. -/
theorem calculateSavingsForPeriods_deterministic
    (u₁ u₂ : List UsageRecord) (p₁ p₂ : PricingData)
    (s₁ s₂ : SubscriptionQuantities)
    (hu : u₁ = u₂) (hp : p₁ = p₂) (hs : s₁ = s₂) :
    calculateSavingsForPeriods u₁ p₁ s₁ = calculateSavingsForPeriods u₂ p₂ s₂ := by
  rw [hu, hp, hs]

/-- Witness for C9 on the scenario inputs. -/
theorem calculateSavingsForPeriods_deterministic_witness :
    scenarioUsage = scenarioUsage ∧
    calculateSavingsForPeriods scenarioUsage scenarioPricing scenarioTable =
      calculateSavingsForPeriods scenarioUsage scenarioPricing scenarioTable :=
  ⟨rfl, calculateSavingsForPeriods_deterministic _ _ _ _ _ _ rfl rfl rfl⟩

/-- C5: the baseline lookup follows the three-step chain — exact
`(hour, dayType)` entry, else the first available dayType's average for
that hour, else 0; in particular a weekday lookup at hour 9 on a table
holding only a weekend hour-9 entry returns the weekend average, and a
lookup at an hour absent from the table returns 0. -/
theorem getSubscriptionQuantity_chain :
    (∀ (d : JSDate) (sq : SubscriptionQuantities)
        (inner : List (DayType × ℚ)) (v : ℚ),
        objGet sq d.hour = some inner → objGet inner (dayTypeOf d) = some v →
        getSubscriptionQuantity d sq = v) ∧
    (∀ (d : JSDate) (sq : SubscriptionQuantities) (k : DayType) (v : ℚ)
        (rest : List (DayType × ℚ)),
        objGet sq d.hour = some ((k, v) :: rest) →
        objGet ((k, v) :: rest) (dayTypeOf d) = none →
        getSubscriptionQuantity d sq = v) ∧
    (∀ (d : JSDate) (sq : SubscriptionQuantities),
        objGet sq d.hour = none → getSubscriptionQuantity d sq = 0) ∧
    (∀ q : ℚ, getSubscriptionQuantity ⟨2024, 7, 15, 9, 0, 1⟩
        [(9, [(DayType.weekend, q)])] = q) ∧
    getSubscriptionQuantity ⟨2024, 7, 15, 3, 0, 1⟩
      [(9, [(DayType.weekend, 5)])] = 0 := by
  refine ⟨?_, ?_, ?_, fun q => rfl, rfl⟩
  · intro d sq inner v h1 h2
    simp [getSubscriptionQuantity, h1, h2]
  · intro d sq k v rest h1 h2
    simp [getSubscriptionQuantity, h1, h2]
  · intro d sq h1
    simp [getSubscriptionQuantity, h1]

/-- Witness for C5 on the scenario table. -/
theorem getSubscriptionQuantity_chain_witness :
    objGet scenarioTable scenarioDate.hour = some [(DayType.weekday, 8)] ∧
    objGet [(DayType.weekday, (8 : ℚ))] (dayTypeOf scenarioDate) = some 8 ∧
    getSubscriptionQuantity scenarioDate scenarioTable = 8 :=
  ⟨rfl, rfl,
   getSubscriptionQuantity_chain.1 scenarioDate scenarioTable _ _ rfl rfl⟩

/-- C1: every emitted savings record satisfies the credit-symmetric
formulas `touCost = usageKWh × rate(timestamp)`,
`dynamicCost = (usageKWh − subscriptionQuantity) × dynamicRate`, and
`savings = touCost − dynamicCost`; and on the scenario input (10 kWh at
2024-07-15T17:00, subscription quantity 8, dynamic rate 0.20) the record
has `touCost = 6.2277`, `dynamicCost = 0.40`, `savings = 5.8277`. -/
theorem savingsRecord_formulas :
    (∀ (usageData : List UsageRecord) (pricingData : PricingData)
        (sq : SubscriptionQuantities) (r : SavingsRecord),
        r ∈ calculateSavingsForPeriods usageData pricingData sq →
          r.touRate = getTOURate r.timestamp ∧
          r.subscriptionQuantity = getSubscriptionQuantity r.timestamp sq ∧
          r.touCost = r.usageKWh * getTOURate r.timestamp ∧
          r.dynamicCost = (r.usageKWh - r.subscriptionQuantity) * r.dynamicRate ∧
          r.savings = r.touCost - r.dynamicCost) ∧
    ((calculateSavings scenarioDate 10 0.20 scenarioTable).touCost = 6.2277 ∧
     (calculateSavings scenarioDate 10 0.20 scenarioTable).dynamicCost = 0.40 ∧
     (calculateSavings scenarioDate 10 0.20 scenarioTable).savings = 5.8277) := by
  constructor
  · intro usageData pricingData sq r hr
    simp only [calculateSavingsForPeriods] at hr
    refine foldl_processRecord_mem _ _ sq
      (fun r => r.touRate = getTOURate r.timestamp ∧
        r.subscriptionQuantity = getSubscriptionQuantity r.timestamp sq ∧
        r.touCost = r.usageKWh * getTOURate r.timestamp ∧
        r.dynamicCost = (r.usageKWh - r.subscriptionQuantity) * r.dynamicRate ∧
        r.savings = r.touCost - r.dynamicCost)
      ?_ usageData [] 0 (by simp) r hr
    intro d u p c
    simp [calculateSavings, calculateTOUCost, calculateDynamicCost]
  · refine ⟨?_, ?_, ?_⟩ <;>
      norm_num [calculateSavings, calculateTOUCost, calculateDynamicCost,
        getTOURate, getSeason, getTOUPeriod, TOU_RATES, getSubscriptionQuantity,
        dayTypeOf, objGet, scenarioDate, scenarioTable, summerStartMonth,
        summerEndMonth]

/-- Witness for C1 on the scenario inputs. -/
theorem savingsRecord_formulas_witness :
    scenarioRecord ∈
      calculateSavingsForPeriods scenarioUsage scenarioPricing scenarioTable ∧
    scenarioRecord.touCost
      = scenarioRecord.usageKWh * getTOURate scenarioRecord.timestamp := by
  have hmem : calculateSavingsForPeriods scenarioUsage scenarioPricing scenarioTable
      = [scenarioRecord] := by
    simp [calculateSavingsForPeriods, buildPricingMaps, scenarioPricing,
      scenarioUsage, processRecord, alignPrice, objSet, objGet, scenarioRecord]
  have hr : scenarioRecord ∈
      calculateSavingsForPeriods scenarioUsage scenarioPricing scenarioTable := by
    rw [hmem]
    exact List.mem_singleton_self _
  exact ⟨hr,
    (savingsRecord_formulas.1 scenarioUsage scenarioPricing scenarioTable
      scenarioRecord hr).2.2.1⟩

/-- C4: alignment tries the exact normalized-timestamp map first and only
on a miss falls back to the `(day-of-week, HH:MM)` pattern map, so an
existing exact match always wins; and appending one more entry to the
pricing series overwrites, in both lookup maps, exactly the key that
entry normalizes to (last-write-wins). -/
theorem alignPrice_precedence_lastWriteWins :
    (∀ (em pm : PricingMap) (d : JSDate) (info : PricingInfo),
        objGet em (normalizeTimestamp d) = some info →
        alignPrice em pm d = some info) ∧
    (∀ (em pm : PricingMap) (d : JSDate),
        objGet em (normalizeTimestamp d) = none →
        alignPrice em pm d = objGet pm (createTimePattern d)) ∧
    (∀ (pricingData : PricingData) (t : JSDate) (p : ℚ) (k : String),
        pricingData.timestamps.length = pricingData.prices.length →
        objGet (buildPricingMaps
            ⟨pricingData.timestamps ++ [t], pricingData.prices ++ [p]⟩).1 k =
          if k = normalizeTimestamp t then some ⟨p, t⟩
          else objGet (buildPricingMaps pricingData).1 k) ∧
    (∀ (pricingData : PricingData) (t : JSDate) (p : ℚ) (k : String),
        pricingData.timestamps.length = pricingData.prices.length →
        objGet (buildPricingMaps
            ⟨pricingData.timestamps ++ [t], pricingData.prices ++ [p]⟩).2 k =
          if k = createTimePattern t then some ⟨p, t⟩
          else objGet (buildPricingMaps pricingData).2 k) := by
  refine ⟨?_, ?_, ?_, ?_⟩
  · intro em pm d info h
    simp [alignPrice, h]
  · intro em pm d h
    simp [alignPrice, h]
  · intro pricingData t p k h
    simp only [buildPricingMaps]
    rw [List.zip_append h, List.foldl_append]
    simp [objGet_objSet]
  · intro pricingData t p k h
    simp only [buildPricingMaps]
    rw [List.zip_append h, List.foldl_append]
    simp [objGet_objSet]

/-- Witness for C4 on the scenario pricing series. -/
theorem alignPrice_precedence_lastWriteWins_witness :
    objGet (buildPricingMaps scenarioPricing).1 (normalizeTimestamp scenarioDate)
      = some ⟨0.20, scenarioDate⟩ ∧
    alignPrice (buildPricingMaps scenarioPricing).1
        (buildPricingMaps scenarioPricing).2 scenarioDate
      = some ⟨0.20, scenarioDate⟩ := by
  have h : objGet (buildPricingMaps scenarioPricing).1
      (normalizeTimestamp scenarioDate) = some ⟨0.20, scenarioDate⟩ := by
    simp [buildPricingMaps, scenarioPricing, objSet, objGet]
  exact ⟨h, alignPrice_precedence_lastWriteWins.1 _ _ scenarioDate _ h⟩

/-- C7: a usage record with neither an exact nor a pattern price match is
silently dropped; the emitted records are exactly the in-order projection
of the matched input records, and the output is never longer than the
input. -/
theorem unmatched_records_dropped (usageData : List UsageRecord)
    (pricingData : PricingData) (sq : SubscriptionQuantities) :
    ((calculateSavingsForPeriods usageData pricingData sq).map projOut
      = (usageData.filter (matchedBy pricingData)).map projIn) ∧
    (calculateSavingsForPeriods usageData pricingData sq).length
      ≤ usageData.length := by
  have h := foldl_processRecord_proj (buildPricingMaps pricingData).1
      (buildPricingMaps pricingData).2 sq usageData [] 0
  simp only [List.map_nil, List.nil_append] at h
  have hmain : (calculateSavingsForPeriods usageData pricingData sq).map projOut
      = (usageData.filter (matchedBy pricingData)).map projIn := by
    simpa [calculateSavingsForPeriods, matchedBy] using h
  refine ⟨hmain, ?_⟩
  have h1 : (calculateSavingsForPeriods usageData pricingData sq).length
      = ((usageData.filter (matchedBy pricingData)).map projIn).length := by
    rw [← hmain, List.length_map]
  rw [h1, List.length_map]
  exact List.length_filter_le _ _

theorem objGet_eq_none_of_not_mem {α β : Type} [DecidableEq α]
    (m : List (α × β)) (k : α) (h : k ∉ m.map Prod.fst) : objGet m k = none := by
  induction m with
  | nil => rfl
  | cons p rest ih =>
      obtain ⟨a, b⟩ := p
      simp only [List.map_cons, List.mem_cons] at h
      push_neg at h
      simp [objGet, h.1, ih h.2]

theorem objSet_keys {α β : Type} [DecidableEq α] (m : List (α × β))
    (k : α) (v : β) :
    (objSet m k v).map Prod.fst
      = if k ∈ m.map Prod.fst then m.map Prod.fst
        else m.map Prod.fst ++ [k] := by
  induction m with
  | nil => simp [objSet]
  | cons p rest ih =>
      obtain ⟨a, b⟩ := p
      by_cases hka : k = a
      · subst hka
        simp [objSet]
      · simp only [objSet, if_neg hka, List.map_cons, ih]
        by_cases hmem : k ∈ List.map Prod.fst rest
        · rw [if_pos hmem, if_pos (List.mem_cons_of_mem a hmem)]
        · rw [if_neg hmem, if_neg (by simp [List.mem_cons, hka, hmem])]
          simp

theorem objSet_keys_nodup {α β : Type} [DecidableEq α] (m : List (α × β))
    (k : α) (v : β) (h : (m.map Prod.fst).Nodup) :
    ((objSet m k v).map Prod.fst).Nodup := by
  rw [objSet_keys]
  split_ifs with hk
  · exact h
  · rw [List.nodup_append]
    refine ⟨h, List.nodup_singleton _, ?_⟩
    simp_all [List.Disjoint]
    intro a x hax ha
    exact hk x (ha ▸ hax)

theorem foldl_groupStep_keys_nodup :
    ∀ (hist : List UsageRecord) (g : List (GroupKey × List ℚ)),
      (g.map Prod.fst).Nodup →
      ((hist.foldl groupStep g).map Prod.fst).Nodup := by
  intro hist
  induction hist with
  | nil => intro g h; exact h
  | cons r rest ih =>
      intro g h
      simp only [List.foldl_cons]
      exact ih _ (objSet_keys_nodup g (recordKey r) _ h)

theorem objGet_foldl_groupStep :
    ∀ (hist : List UsageRecord) (g : List (GroupKey × List ℚ)) (key : GroupKey),
      objGet (hist.foldl groupStep g) key
        = if specGroupUsages hist key = [] then objGet g key
          else some ((objGet g key).getD [] ++ specGroupUsages hist key) := by
  intro hist
  induction hist with
  | nil => intro g key; simp [specGroupUsages]
  | cons r rest ih =>
      intro g key
      simp only [List.foldl_cons]
      rw [ih]
      by_cases hk : recordKey r = key
      · have hgu : specGroupUsages (r :: rest) key
            = r.usage :: specGroupUsages rest key := by
          simp [specGroupUsages, List.filter_cons, hk]
        have hset : objGet (groupStep g r) key
            = some ((objGet g key).getD [] ++ [r.usage]) := by
          simp [groupStep, objGet_objSet, hk]
        rw [hgu, hset]
        by_cases hrest : specGroupUsages rest key = []
        · simp [hrest]
        · simp [hrest]
      · have hgu : specGroupUsages (r :: rest) key = specGroupUsages rest key := by
          simp [specGroupUsages, List.filter_cons, hk]
        have hne : ¬(key = recordKey r) := fun hkey => hk hkey.symm
        have hset : objGet (groupStep g r) key = objGet g key := by
          simp [groupStep, objGet_objSet, hne]
        rw [hgu, hset]

theorem tableLookup_tableStep (sq : SubscriptionQuantities)
    (e : GroupKey × List ℚ) (h : Int) (dt : DayType) :
    tableLookup (tableStep sq e) h dt
      = if (h, dt) = e.1 then some (e.2.sum / (e.2.length : ℚ))
        else tableLookup sq h dt := by
  obtain ⟨⟨h0, dt0⟩, vals⟩ := e
  simp only [tableStep, tableLookup]
  by_cases hh : h = h0
  · subst hh
    rw [objGet_objSet, if_pos rfl, Option.some_bind, objGet_objSet]
    by_cases hdt : dt = dt0
    · subst hdt
      simp
    · rw [if_neg hdt]
      have hpair : ¬((h, dt) = (h, dt0)) := by simp [hdt]
      rw [if_neg hpair]
      cases hsq : objGet sq h with
      | none => simp [objGet]
      | some inner => simp
  · rw [objGet_objSet, if_neg hh]
    have hpair : ¬((h, dt) = (h0, dt0)) := by simp [hh]
    rw [if_neg hpair]

theorem tableLookup_foldl_tableStep :
    ∀ (es : List (GroupKey × List ℚ)) (sq : SubscriptionQuantities)
      (h : Int) (dt : DayType),
      (es.map Prod.fst).Nodup →
      tableLookup (es.foldl tableStep sq) h dt
        = (objGet es (h, dt)).elim (tableLookup sq h dt)
            (fun vals => some (vals.sum / (vals.length : ℚ))) := by
  intro es
  induction es with
  | nil => intro sq h dt _; simp [objGet]
  | cons e rest ih =>
      intro sq h dt hnodup
      simp only [List.map_cons, List.nodup_cons] at hnodup
      obtain ⟨he, hrest⟩ := hnodup
      simp only [List.foldl_cons]
      rw [ih _ _ _ hrest]
      obtain ⟨k0, vals0⟩ := e
      by_cases hk : (h, dt) = k0
      · have hrnone : objGet rest (h, dt) = none := by
          apply objGet_eq_none_of_not_mem
          rw [hk]
          exact he
        rw [hrnone]
        simp only [Option.elim]
        rw [tableLookup_tableStep, if_pos hk]
        simp [objGet, hk]
      · have hcons : objGet ((k0, vals0) :: rest) (h, dt)
            = objGet rest (h, dt) := by
          simp [objGet, hk]
        rw [hcons]
        cases hr : objGet rest (h, dt) with
        | none =>
            simp only [Option.elim]
            rw [tableLookup_tableStep, if_neg (by simpa using hk)]
        | some vals => simp

theorem foldl_processRecord_cumulative (em pm : PricingMap)
    (sq : SubscriptionQuantities) :
    ∀ (u : List UsageRecord) (acc : List SavingsRecord) (c : ℚ),
      c = (acc.map (fun r => r.savings)).sum →
      (∀ (i : ℕ) (h : i < acc.length),
        (acc.get ⟨i, h⟩).cumulativeSavings
          = ((acc.take (i + 1)).map (fun r => r.savings)).sum) →
      (u.foldl (processRecord em pm sq) (acc, c)).2
          = (((u.foldl (processRecord em pm sq) (acc, c)).1).map
              (fun r => r.savings)).sum ∧
      ∀ (i : ℕ) (h : i < (u.foldl (processRecord em pm sq) (acc, c)).1.length),
        ((u.foldl (processRecord em pm sq) (acc, c)).1.get ⟨i, h⟩).cumulativeSavings
          = (((u.foldl (processRecord em pm sq) (acc, c)).1.take (i + 1)).map
              (fun r => r.savings)).sum := by
  intro u
  induction u with
  | nil => intro acc c h1 h2; exact ⟨h1, h2⟩
  | cons dp rest ih =>
      intro acc c h1 h2
      simp only [List.foldl_cons]
      cases halign : alignPrice em pm dp.timestamp with
      | none =>
          have hstep : processRecord em pm sq (acc, c) dp = (acc, c) := by
            simp [processRecord, halign]
          rw [hstep]
          exact ih acc c h1 h2
      | some info =>
          have hstep : processRecord em pm sq (acc, c) dp =
              (acc ++ [⟨calculateSavings dp.timestamp dp.usage info.price sq,
                  c + (calculateSavings dp.timestamp dp.usage info.price sq).savings⟩],
               c + (calculateSavings dp.timestamp dp.usage info.price sq).savings) := by
            simp [processRecord, halign]
          rw [hstep]
          apply ih
          · simp [h1]
          · intro i h
            rcases Nat.lt_or_ge i acc.length with hi | hi
            · have hget : (acc ++ [(⟨calculateSavings dp.timestamp dp.usage
                  info.price sq,
                  c + (calculateSavings dp.timestamp dp.usage info.price sq).savings⟩
                    : SavingsRecord)])[i] = acc[i] :=
                List.getElem_append_left hi
              have htake : (acc ++ [(⟨calculateSavings dp.timestamp dp.usage
                  info.price sq,
                  c + (calculateSavings dp.timestamp dp.usage info.price sq).savings⟩
                    : SavingsRecord)]).take (i + 1) = acc.take (i + 1) := by
                rw [List.take_append_eq_append_take]
                have : i + 1 - acc.length = 0 := by omega
                simp [this]
              simp only [List.get_eq_getElem] at h2 ⊢
              rw [hget, htake]
              exact h2 i hi
            · have hi' : i = acc.length := by
                have := h
                simp only [List.length_append, List.length_singleton] at this
                omega
              subst hi'
              have hget : (acc ++ [(⟨calculateSavings dp.timestamp dp.usage
                  info.price sq,
                  c + (calculateSavings dp.timestamp dp.usage info.price sq).savings⟩
                    : SavingsRecord)])[acc.length]
                  = (⟨calculateSavings dp.timestamp dp.usage info.price sq,
                      c + (calculateSavings dp.timestamp dp.usage
                        info.price sq).savings⟩ : SavingsRecord) := by
                rw [List.getElem_append_right (Nat.le_refl _)]
                simp
              have htake : (acc ++ [(⟨calculateSavings dp.timestamp dp.usage
                  info.price sq,
                  c + (calculateSavings dp.timestamp dp.usage info.price sq).savings⟩
                    : SavingsRecord)]).take (acc.length + 1)
                  = acc ++ [⟨calculateSavings dp.timestamp dp.usage info.price sq,
                      c + (calculateSavings dp.timestamp dp.usage
                        info.price sq).savings⟩] := by
                apply List.take_of_length_le
                simp
              simp only [List.get_eq_getElem]
              rw [hget, htake]
              simp [h1]

/-- C2: each emitted record's `cumulativeSavings` equals the sum of the
`savings` of all records emitted up to and including it, and in
particular the last record's `cumulativeSavings` is the sum of all
emitted `savings`. -/
theorem cumulativeSavings_running_total (usageData : List UsageRecord)
    (pricingData : PricingData) (sq : SubscriptionQuantities) :
    (∀ (i : ℕ) (h : i < (calculateSavingsForPeriods usageData pricingData sq).length),
      ((calculateSavingsForPeriods usageData pricingData sq).get ⟨i, h⟩).cumulativeSavings
        = (((calculateSavingsForPeriods usageData pricingData sq).take (i + 1)).map
            (fun r => r.savings)).sum) ∧
    (∀ r : SavingsRecord,
      (calculateSavingsForPeriods usageData pricingData sq).getLast? = some r →
      r.cumulativeSavings
        = ((calculateSavingsForPeriods usageData pricingData sq).map
            (fun r => r.savings)).sum) := by
  have key := foldl_processRecord_cumulative (buildPricingMaps pricingData).1
      (buildPricingMaps pricingData).2 sq usageData [] 0 (by simp)
      (by intro i h; simp at h)
  constructor
  · intro i h
    exact key.2 i h
  · intro r hr
    rw [List.getLast?_eq_getElem?] at hr
    rcases List.getElem?_eq_some_iff.1 hr with ⟨hlt, hr'⟩
    have h2 : ((calculateSavingsForPeriods usageData pricingData sq).get
        ⟨(calculateSavingsForPeriods usageData pricingData sq).length - 1,
          hlt⟩).cumulativeSavings
        = (((calculateSavingsForPeriods usageData pricingData sq).take
            ((calculateSavingsForPeriods usageData pricingData sq).length - 1 + 1)).map
            (fun r => r.savings)).sum := key.2 _ hlt
    have harith : (calculateSavingsForPeriods usageData pricingData sq).length - 1 + 1
        = (calculateSavingsForPeriods usageData pricingData sq).length := by omega
    rw [harith, List.take_length] at h2
    simp only [List.get_eq_getElem] at h2
    rw [hr'] at h2
    exact h2

/-- Witness for C2 on the scenario inputs. -/
theorem cumulativeSavings_running_total_witness :
    (calculateSavingsForPeriods scenarioUsage scenarioPricing
        scenarioTable).getLast? = some scenarioRecord ∧
    scenarioRecord.cumulativeSavings
      = ((calculateSavingsForPeriods scenarioUsage scenarioPricing
          scenarioTable).map (fun r => r.savings)).sum := by
  have hmem : calculateSavingsForPeriods scenarioUsage scenarioPricing scenarioTable
      = [scenarioRecord] := by
    simp [calculateSavingsForPeriods, buildPricingMaps, scenarioPricing,
      scenarioUsage, processRecord, alignPrice, objSet, objGet, scenarioRecord]
  have hlast : (calculateSavingsForPeriods scenarioUsage scenarioPricing
      scenarioTable).getLast? = some scenarioRecord := by
    rw [hmem]
    rfl
  exact ⟨hlast,
    (cumulativeSavings_running_total scenarioUsage scenarioPricing
      scenarioTable).2 scenarioRecord hlast⟩

/-- C6: the baseline build groups the historical records by
`(hour, dayType)` — weekend iff the day-of-week is Saturday or Sunday —
and stores the arithmetic mean of each non-empty group; empty groups are
absent from the table, not zero-filled; and two weekday records at hour
14 with usage 3 and 5 produce a weekday hour-14 entry of 4. -/
theorem calculateSubscriptionQuantities_groups_means
    (hist : List UsageRecord) (h : Int) (dt : DayType) :
    (tableLookup (calculateSubscriptionQuantities hist) h dt
      = if specGroupUsages hist (h, dt) = [] then none
        else some ((specGroupUsages hist (h, dt)).sum
            / ((specGroupUsages hist (h, dt)).length : ℚ))) ∧
    (∀ d : JSDate,
      dayTypeOf d = DayType.weekend ↔ (d.dayOfWeek = 0 ∨ d.dayOfWeek = 6)) ∧
    getSubscriptionQuantity ⟨2024, 7, 15, 14, 0, 1⟩
      (calculateSubscriptionQuantities
        [⟨⟨2024, 7, 15, 14, 0, 1⟩, 3⟩, ⟨⟨2024, 7, 16, 14, 0, 2⟩, 5⟩]) = 4 := by
  refine ⟨?_, ?_, ?_⟩
  · have hnodup := foldl_groupStep_keys_nodup hist [] (by simp)
    have hmain := tableLookup_foldl_tableStep (hist.foldl groupStep []) [] h dt
      hnodup
    have hgrouped := objGet_foldl_groupStep hist [] (h, dt)
    show tableLookup ((hist.foldl groupStep []).foldl tableStep []) h dt = _
    rw [hmain, hgrouped]
    by_cases hempty : specGroupUsages hist (h, dt) = []
    · simp [hempty, tableLookup, objGet]
    · simp [hempty, objGet]
  · intro d
    unfold dayTypeOf
    split_ifs with hd <;> simp_all
  · norm_num [calculateSubscriptionQuantities, groupStep, tableStep, recordKey,
      dayTypeOf, objSet, objGet, getSubscriptionQuantity]

end Flexi
